import Mathlib

/-!
Shallow embedding of the pastebin scraper (src/main.go).

Go strings are modelled as `List Char`.  The two regular expressions built by
`parseKeywords` are fixed pattern families, so instead of a general regex
engine we embed the matching semantics of exactly those two patterns:

* literal rules compile `(?im)^(.*\b<quoted keyword>.*)$` and
  `FindStringSubmatch` returns, as capture group 1, the first line of the body
  that contains an occurrence of the keyword (compared case-insensitively)
  starting at a word boundary; the capture is the whole line.  Because the
  keyword is inserted through `regexp.QuoteMeta`, it is matched literally.
  Case folding is modelled on ASCII letters (the fragment RE2's folding agrees
  with for ASCII text); the per-line model assumes the keyword itself contains
  no newline, which quantified theorems state as a hypothesis.
* cidr rules compile `(\b(?:\d{1,3}\.){3}\d{1,3}\b)` and `FindStringSubmatch`
  returns the leftmost dotted-quad-shaped substring, choosing field widths by
  the engine's leftmost-first backtracking preference (greedy `{1,3}`).

`net.ParseIP` on the matcher's captures is modelled on the IPv4 dotted-quad
grammar (the only strings the quad pattern can capture; leading zeros in an
octet are rejected, as in current Go).  `net.ParseCIDR` follows the stdlib:
the first of dot, colon or percent in the address part selects the IPv4
parser, the IPv6 parser (hex groups, at most one ellipsis, optional embedded
dotted quad), or a zone (rejected for CIDRs), and the mask is bounded by the
family's bit length.  Addresses are big-endian naturals (32- or 128-bit).
-/

set_option maxRecDepth 8192

/-- ASCII word characters, exactly the class RE2 uses for `\b`. -/
def isWordChar (c : Char) : Bool := c.isAlphanum || c == '_'

/-- Go `unicode.IsSpace`, the predicate behind `strings.TrimSpace`. -/
def isSpaceGo (c : Char) : Bool :=
  let n := c.toNat
  (9 ≤ n && n ≤ 13) || n == 32 || n == 0x85 || n == 0xA0 || n == 0x1680 ||
    (0x2000 ≤ n && n ≤ 0x200A) || n == 0x2028 || n == 0x2029 || n == 0x202F ||
    n == 0x205F || n == 0x3000

/-- Go `strings.TrimSpace`. -/
def trimSpace (s : List Char) : List Char :=
  ((s.dropWhile isSpaceGo).reverse.dropWhile isSpaceGo).reverse

/-- Case-insensitive (ASCII folding) match of `pat` against the front of `s`. -/
def ciMatchFront : List Char → List Char → Bool
  | [], _ => true
  | _ :: _, [] => false
  | p :: ps, c :: cs => (p.toLower == c.toLower) && ciMatchFront ps cs

/-- Case-insensitive occurrence of `pat` in `s` at index `i`. -/
def ciOccursAt (pat s : List Char) (i : Nat) : Bool := ciMatchFront pat (s.drop i)

/-- Exact (case-sensitive) match of `pat` against the front of `s`. -/
def matchFront : List Char → List Char → Bool
  | [], _ => true
  | _ :: _, [] => false
  | p :: ps, c :: cs => (p == c) && matchFront ps cs

/-- Go `strings.Contains s sub`. -/
def containsSub (s sub : List Char) : Bool :=
  (List.range (s.length + 1)).any fun i => matchFront sub (s.drop i)

/-- Whether the character at index `i` of `s` is a word character
(out of range counts as not a word character, as at the ends of the text). -/
def wordAt (s : List Char) (i : Nat) : Bool :=
  match s.get? i with
  | some c => isWordChar c
  | none => false

/-- RE2 `\b`: the position `i` is a word boundary in `s`. -/
def boundaryAt (s : List Char) (i : Nat) : Bool :=
  ((i != 0) && wordAt s (i - 1)) != wordAt s i

/-- The line `line` matches `.*\b<kw>.*`: some index carries a word boundary
followed by a case-insensitive occurrence of the keyword. -/
def lineMatches (kw line : List Char) : Bool :=
  (List.range (line.length + 1)).any fun i => boundaryAt line i && ciOccursAt kw line i

/-- The lines of a body, as `(?m)` sees them: split on newline. -/
def splitLines (s : List Char) : List (List Char) := s.splitOn '\n'

/-- `FindStringSubmatch` capture of `(?im)^(.*\b<kw>.*)$` on `body`:
the first line containing a boundary-anchored keyword occurrence. -/
def findLine (kw body : List Char) : Option (List Char) :=
  (splitLines body).find? fun l => lineMatches kw l

/-- Whether index `i` of `s` holds an ASCII digit. -/
def isDigitAt (s : List Char) (i : Nat) : Bool :=
  match s.get? i with
  | some c => c.isDigit
  | none => false

/-- `n` consecutive digits starting at index `i`. -/
def digitsAt (s : List Char) (i n : Nat) : Bool :=
  (List.range n).all fun j => isDigitAt s (i + j)

/-- The character at index `i` of `s` is exactly `c`. -/
def charAtIs (s : List Char) (i : Nat) (c : Char) : Bool := s.get? i == some c

/-- A dotted quad with field widths `d1.d2.d3.d4` starting at index `i`,
followed by a word boundary (the trailing `\b`; the character after the last
digit, if any, must not be a word character). -/
def quadMatchAt (s : List Char) (i d1 d2 d3 d4 : Nat) : Bool :=
  digitsAt s i d1 && charAtIs s (i + d1) '.' &&
  digitsAt s (i + d1 + 1) d2 && charAtIs s (i + d1 + 1 + d2) '.' &&
  digitsAt s (i + d1 + d2 + 2) d3 && charAtIs s (i + d1 + d2 + 2 + d3) '.' &&
  digitsAt s (i + d1 + d2 + d3 + 3) d4 && !(wordAt s (i + d1 + d2 + d3 + d4 + 3))

/-- Greedy preference order of `\d{1,3}`: longer first. -/
def greedyLens : List Nat := [3, 2, 1]

/-- Length of the quad match at index `i` preferred by leftmost-first
backtracking, if any. -/
def quadLenAt (s : List Char) (i : Nat) : Option Nat :=
  greedyLens.findSome? fun d1 =>
    greedyLens.findSome? fun d2 =>
      greedyLens.findSome? fun d3 =>
        greedyLens.findSome? fun d4 =>
          if quadMatchAt s i d1 d2 d3 d4 then some (d1 + d2 + d3 + d4 + 3) else none

/-- `FindStringSubmatch` capture of `(\b(?:\d{1,3}\.){3}\d{1,3}\b)` on `s`:
the leftmost dotted-quad-shaped substring. -/
def findQuad (s : List Char) : Option (List Char) :=
  (List.range s.length).findSome? fun i =>
    if boundaryAt s i then (quadLenAt s i).map fun L => (s.drop i).take L
    else none

/-- Decimal value of a digit string. -/
def digitsToNat (s : List Char) : Nat := s.foldl (fun a c => a * 10 + (c.toNat - 48)) 0

/-- One octet field of `net.ParseIP`'s IPv4 path: 1-3 digits, value at most
255, no leading zero. -/
def parseOctet (s : List Char) : Option Nat :=
  if s.isEmpty then none
  else if !(s.all Char.isDigit) then none
  else if decide (1 < s.length) && (s.head? == some '0') then none
  else if 3 < s.length then none
  else
    let v := digitsToNat s
    if v ≤ 255 then some v else none

/-- The IPv4 dotted-quad grammar of Go's address parsing (netip's
`parseIPv4`): exactly four dot-separated fields as above, yielding the 32-bit
big-endian value.  This is `net.ParseIP` on the matcher's quad captures (the
only strings the quad pattern can produce), the IPv4 branch of
`net.ParseCIDR`'s address parse, and the embedded IPv4 tail of an IPv6
address. -/
def parseIP (s : List Char) : Option Nat :=
  match s.splitOn '.' with
  | [a, b, c, d] => do
    let va ← parseOctet a
    let vb ← parseOctet b
    let vc ← parseOctet c
    let vd ← parseOctet d
    pure (((va * 256 + vb) * 256 + vc) * 256 + vd)
  | _ => none

/-- The mask part of `net.ParseCIDR`, Go's `dtoi`: all input consumed as
decimal digits, leading zeros allowed, values reaching the overflow cutoff
0xFFFFFF rejected.  The family-dependent upper bound is checked by
`parseCIDR`. -/
def parseMask (s : List Char) : Option Nat :=
  if s.isEmpty then none
  else if !(s.all Char.isDigit) then none
  else
    let v := digitsToNat s
    if v < 16777215 then some v else none

/-- Value of a hex digit, if any. -/
def hexVal (c : Char) : Option Nat :=
  if '0' ≤ c ∧ c ≤ '9' then some (c.toNat - 48)
  else if 'a' ≤ c ∧ c ≤ 'f' then some (c.toNat - 87)
  else if 'A' ≤ c ∧ c ≤ 'F' then some (c.toNat - 55)
  else none

/-- The leading 16-bit hex group of an IPv6 field: its value and digit count.
As in Go's scan, no digit at all or more than four digits is an error. -/
def hexGroup (s : List Char) : Option (Nat × Nat) :=
  let ds := s.takeWhile fun c => (hexVal c).isSome
  if ds.length == 0 then none
  else if 4 < ds.length then none
  else some (ds.foldl (fun a c => a * 16 + (hexVal c).getD 0) 0, ds.length)

/-- The field loop of Go's `parseIPv6` (netip): repeatedly parse a hex group;
a dot after a group switches to an embedded dotted quad (only in the final
two fields unless an ellipsis was seen); otherwise the group contributes two
bytes and a colon continues, with a second colon recording the single allowed
ellipsis position.  Returns the bytes parsed and the ellipsis position; any
leftover input once 16 bytes are full is trailing garbage.  `fuel` bounds the
iterations: each consumes at least two of the sixteen bytes, so the initial
eight is never exhausted. -/
def parseIPv6Fields (fuel : Nat) (ell : Option Nat) (bytes : List Nat) (s : List Char) :
    Option (List Nat × Option Nat) :=
  match fuel with
  | 0 => none
  | fuel' + 1 =>
    match hexGroup s with
    | none => none
    | some (acc, off) =>
      let rest := s.drop off
      if rest.head? == some '.' then
        if ell.isNone && !(bytes.length == 12) then none
        else if 16 < bytes.length + 4 then none
        else
          match parseIP s with
          | none => none
          | some v4 =>
            some (bytes ++ [v4 / 16777216, v4 / 65536 % 256, v4 / 256 % 256, v4 % 256], ell)
      else
        let bytes2 := bytes ++ [acc / 256, acc % 256]
        if rest.isEmpty then some (bytes2, ell)
        else if !(rest.head? == some ':') then none
        else if rest.length == 1 then none
        else
          let rest2 := rest.drop 1
          if rest2.head? == some ':' then
            if ell.isSome then none
            else
              let rest3 := rest2.drop 1
              if rest3.isEmpty then some (bytes2, some bytes2.length)
              else if bytes2.length < 16 then
                parseIPv6Fields fuel' (some bytes2.length) bytes2 rest3
              else none
          else if bytes2.length < 16 then parseIPv6Fields fuel' ell bytes2 rest2
          else none

/-- Big-endian value of a byte list. -/
def bytesToNat (bs : List Nat) : Nat := bs.foldl (fun a b => a * 256 + b) 0

/-- Go's `parseIPv6` (netip, zone already excluded by the caller): an
optional leading ellipsis, then the field loop; fewer than 16 bytes demand an
ellipsis, expanded with zero bytes at its position, and a full address must
not also carry an ellipsis.  The address is the 128-bit big-endian value. -/
def parseIPv6 (s0 : List Char) : Option Nat :=
  let start : List Char × Option Nat :=
    if s0.take 2 == [':', ':'] then (s0.drop 2, some 0) else (s0, none)
  if start.1.isEmpty then
    if start.2.isSome then some 0 else none
  else
    match parseIPv6Fields 8 start.2 [] start.1 with
    | none => none
    | some (bytes, e) =>
      if bytes.length < 16 then
        match e with
        | none => none
        | some i =>
          some (bytesToNat (bytes.take i ++ List.replicate (16 - bytes.length) 0 ++ bytes.drop i))
      else
        match e with
        | some _ => none
        | none => some (bytesToNat bytes)

/-- `net.IPNet`: base address (already masked by `ParseCIDR`), prefix length
of the mask, and the address width in bits - 32 for a network whose address
part parsed as IPv4 (stored in 4-byte form), 128 for one that parsed as IPv6
(stored in 16-byte form). -/
structure IPNet where
  ip : Nat
  maskBits : Nat
  bitLen : Nat
  deriving DecidableEq

/-- `net.CIDRMask n w` as a `w`-bit natural. -/
def cidrMask (n w : Nat) : Nat := (2 ^ n - 1) * 2 ^ (w - n)

/-- `net.ParseCIDR`: split at the first slash; the address part is dispatched
as in `netip.ParseAddr` - the first of dot, colon or percent selects the IPv4
parser, the IPv6 parser, or a zone (zones and addresses with no such
character are errors); the mask is `dtoi`-parsed and bounded by the address
family's bit length; the returned network carries the masked base. -/
def parseCIDR (s : List Char) : Option IPNet :=
  let addr := s.takeWhile fun c => c != '/'
  if addr.length == s.length then none
  else
    let mask := s.drop (addr.length + 1)
    match addr.find? fun c => c == '.' || c == ':' || c == '%' with
    | some '.' =>
      match parseIP addr, parseMask mask with
      | some ip, some n =>
        if n ≤ 32 then
          some { ip := Nat.land ip (cidrMask n 32), maskBits := n, bitLen := 32 }
        else none
      | _, _ => none
    | some ':' =>
      if addr.contains '%' then none
      else
        match parseIPv6 addr, parseMask mask with
        | some ip, some n =>
          if n ≤ 128 then
            some { ip := Nat.land ip (cidrMask n 128), maskBits := n, bitLen := 128 }
          else none
        | _, _ => none
    | _ => none

/-- `(*net.IPNet).Contains` applied to a parsed dotted-quad match (the only
addresses `checkKeywords` tests): `ParseIP` yields the v4-mapped form, which
`Contains` reduces with `To4` to 4 bytes.  A 32-bit network compares the
masked low words; a 128-bit network participates only through its `To4` form
- its base must be v4-mapped (first 10 bytes zero then 0xff 0xff), compared
under the last 4 bytes of its 16-byte mask - and any other 16-byte network
fails the length comparison. -/
def ipNetContains (nt : IPNet) (ip : Nat) : Bool :=
  if nt.bitLen == 32 then
    let m := cidrMask nt.maskBits 32
    Nat.land nt.ip m == Nat.land ip m
  else if nt.ip / 4294967296 == 65535 then
    let m := Nat.land (cidrMask nt.maskBits 128) 4294967295
    Nat.land (nt.ip % 4294967296) m == Nat.land ip m
  else false

/-- The two compiled regular expressions `parseKeywords` can store, by the
data determining them: the fixed quad pattern, or the literal line pattern
built from a (QuoteMeta-escaped, hence literally matched) keyword. -/
inductive Re where
  | quadRe : Re
  | lineRe : List Char → Re
  deriving DecidableEq

/-- `regexp.FindStringSubmatch`'s capture group 1 for the two patterns. -/
def findStringSubmatch : Re → List Char → Option (List Char)
  | .quadRe, body => findQuad body
  | .lineRe kw, body => findLine kw body

/-- Go struct `keywordType` (src/main.go lines 22-27).  The `regexp` pointer
and the `ipNet` pointer may be nil, modelled by `Option`. -/
structure keywordType where
  regexp : Option Re
  keywordType : String
  ipNet : Option IPNet
  exceptions : List (List Char)
  deriving DecidableEq

/-- `checkExceptions` (src/main.go lines 67-75): does `s` contain one of the
exception substrings? -/
def checkExceptions (s : List Char) (exceptions : List (List Char)) : Bool :=
  exceptions.any fun x => containsSub s x

/-- The loop body of `checkKeywords` (src/main.go lines 39-62) for one rule:
the recorded match for that rule, if any.  In the `ip` branch a nil `ipNet`
would fault in Go; `parseKeywords` always sets it, so the `none` case is
unreachable for compiled rules and modelled as no match. -/
def checkOneKeyword (body : List Char) (v : keywordType) : Option (List Char) :=
  match v.regexp with
  | none => none
  | some re =>
    match findStringSubmatch re body with
    | none => none
    | some s1 =>
      let m := trimSpace s1
      if v.keywordType = "ip" then
        match parseIP m with
        | none => none
        | some ip =>
          match v.ipNet with
          | some nt => if ipNetContains nt ip then some m else none
          | none => none
      else
        if checkExceptions m v.exceptions then none else some m

/-- The accumulating loop of `checkKeywords`: `status` and `found` as built
after processing a prefix of the rule set. -/
def checkKeywordsAux (body : List Char) :
    List (List Char × keywordType) → Bool → List (List Char × List Char) →
      Bool × List (List Char × List Char)
  | [], status, found => (status, found)
  | (k, v) :: rest, status, found =>
    match checkOneKeyword body v with
    | some m => checkKeywordsAux body rest true (found ++ [(k, m)])
    | none => checkKeywordsAux body rest status found

/-- `checkKeywords` (src/main.go lines 35-65): evaluate every rule against the
body, returning the overall flag and the map from rule identifier to the
substring that triggered it (the Go map is modelled as an association list in
iteration order). -/
def checkKeywords (body : List Char) (keywords : List (List Char × keywordType)) :
    Bool × List (List Char × List Char) :=
  checkKeywordsAux body keywords false []

/-- Association-list read-out of a Go map. -/
def mapLookup {κ β : Type} [DecidableEq κ] (k : κ) : List (κ × β) → Option β
  | [] => none
  | (k1, b) :: es => if k = k1 then some b else mapLookup k es

/-- Config struct `keyword` with fields `Keyword`, `Type`, `Exceptions`
(`Type` is a reserved word in Lean, so the field is named `ktype`). -/
structure keyword where
  Keyword : List Char
  ktype : String
  Exceptions : List (List Char)
  deriving DecidableEq

/-- `parseKeywords` (src/main.go lines 77-106): compile the rule definitions,
failing on the first cidr keyword that does not parse.  The error carries the
message text; on error no rule set is produced. -/
def parseKeywords : List keyword → Except (List Char) (List (List Char × keywordType))
  | [] => .ok []
  | k :: rest =>
    if k.ktype = "cidr" then
      match parseCIDR k.Keyword with
      | none => .error ("could not parse cidr ".toList ++ k.Keyword)
      | some n =>
        match parseKeywords rest with
        | .error e => .error e
        | .ok m =>
          .ok ((k.Keyword,
            { regexp := some .quadRe, keywordType := "ip", ipNet := some n,
              exceptions := k.Exceptions }) :: m)
    else
      match parseKeywords rest with
      | .error e => .error e
      | .ok m =>
        .ok ((k.Keyword,
          { regexp := some (.lineRe k.Keyword), keywordType := "string", ipNet := none,
            exceptions := k.Exceptions }) :: m)

/-! ## Seen-Set cache and one poll cycle of the main loop

The cache `alredyChecked : map[string]time.Time` and the cycle body live in
`main` (src/main.go lines 164-203).  The map is modelled as an association
list whose insert erases any previous binding (Go map assignment); timestamps
are naturals.  The collaborators `fetchPasteList` and `paste.fetch` live in
the repository's other source file and are supplied to the cycle as
parameters: the list result as a value, the per-paste fetch as an oracle. -/

/-- Membership test on the seen-set: `_, ok := alredyChecked[key]`. -/
def hasChecked (m : List (String × Nat)) (k : String) : Bool :=
  (mapLookup k m).isSome

/-- `alredyChecked[key] = now`: Go map assignment (insert or overwrite). -/
def markChecked (m : List (String × Nat)) (k : String) (t : Nat) : List (String × Nat) :=
  (k, t) :: m.filter fun e => !(e.1 == k)

/-- The cleanup loop (src/main.go lines 196-202): delete every entry whose
time is strictly before the threshold. -/
def evictOld (m : List (String × Nat)) (threshold : Nat) : List (String × Nat) :=
  m.filter fun e => !decide (e.2 < threshold)

/-- Modelled from the spec: a Paste Item as the cycle observes it, reduced to
its identifier `Key` (the `paste` struct is declared in the repository's
other source file; `main` only reads `p.Key`). -/
structure paste where
  Key : String
  deriving DecidableEq

/-- Modelled from the spec: the outcome of `p.fetch(ctx, keywords)` — an
error, a matching paste (the non-nil `p2` sent to the output channel), or a
clean non-match (`p2 == nil`). -/
inductive FetchResult where
  | fetchErr (msg : String) : FetchResult
  | matched (out : String) : FetchResult
  | nomatch : FetchResult
  deriving DecidableEq

/-- Observable outcome of one poll cycle: the seen-set afterwards, the keys
for which a body fetch was attempted (in order), the errors sent to the error
channel, and the pastes sent to the output channel. -/
structure CycleResult where
  checked : List (String × Nat)
  fetches : List String
  errors : List String
  outputs : List String
  deriving DecidableEq

/-- The per-item loop (src/main.go lines 179-193): skip a seen key; otherwise
mark it (before the fetch), fetch, and dispatch the error or the match.  All
marks of one cycle are stamped `tmark` (the code stamps each with the current
time; the exact stamp is irrelevant to the cycle's logic). -/
def processPastes (fetchRes : String → FetchResult) (tmark : Nat) :
    List paste → List (String × Nat) → CycleResult
  | [], checked => ⟨checked, [], [], []⟩
  | p :: rest, checked =>
    if hasChecked checked p.Key then
      processPastes fetchRes tmark rest checked
    else
      let r := processPastes fetchRes tmark rest (markChecked checked p.Key tmark)
      match fetchRes p.Key with
      | .fetchErr e => ⟨r.checked, p.Key :: r.fetches, e :: r.errors, r.outputs⟩
      | .matched out => ⟨r.checked, p.Key :: r.fetches, r.errors, out :: r.outputs⟩
      | .nomatch => ⟨r.checked, p.Key :: r.fetches, r.errors, r.outputs⟩

/-- One poll cycle (src/main.go lines 172-202): on a failed `fetchPasteList`
send one error and `continue` (the seen-set is untouched, the eviction is
skipped); otherwise process every listed paste and then evict entries older
than the threshold (`now - 10 minutes` in the code). -/
def runCycle (listRes : Except String (List paste)) (fetchRes : String → FetchResult)
    (tmark threshold : Nat) (checked : List (String × Nat)) : CycleResult :=
  match listRes with
  | .error e => ⟨checked, [], [e], []⟩
  | .ok pastes =>
    let r := processPastes fetchRes tmark pastes checked
    ⟨evictOld r.checked threshold, r.fetches, r.errors, r.outputs⟩

/-! ## Structural lemmas about the matcher loop -/

/-- The accumulating loop in closed form: the flag is the old flag or-ed with
"some rule matched", and `found` gains one binding per matching rule, in
iteration order. -/
theorem checkKeywordsAux_spec (body : List Char) (l : List (List Char × keywordType))
    (st : Bool) (fd : List (List Char × List Char)) :
    checkKeywordsAux body l st fd =
      (st || l.any fun kv => (checkOneKeyword body kv.2).isSome,
       fd ++ l.filterMap fun kv => (checkOneKeyword body kv.2).map fun m => (kv.1, m)) := by
  induction l generalizing st fd with
  | nil => simp [checkKeywordsAux]
  | cons hd tl ih =>
    obtain ⟨k, v⟩ := hd
    cases h : checkOneKeyword body v with
    | none => simp [checkKeywordsAux, h, ih]
    | some m => simp [checkKeywordsAux, h, ih]

/-- A key absent from the key column is not found. -/
theorem mapLookup_eq_none_of_not_mem {κ β : Type} [DecidableEq κ] (k : κ)
    (l : List (κ × β)) (h : k ∉ l.map Prod.fst) : mapLookup k l = none := by
  induction l with
  | nil => rfl
  | cons hd tl ih =>
    obtain ⟨k1, b⟩ := hd
    simp only [List.map_cons, List.mem_cons, not_or] at h
    simp [mapLookup, h.1, ih h.2]

/-- Keys of the per-rule match list come from the rule set's keys. -/
theorem keys_found_subset (body : List Char) (l : List (List Char × keywordType)) :
    ((l.filterMap fun kv => (checkOneKeyword body kv.2).map fun m => (kv.1, m)).map
      Prod.fst) ⊆ l.map Prod.fst := by
  intro x hx
  simp only [List.mem_map, List.mem_filterMap] at hx ⊢
  obtain ⟨⟨k1, m⟩, ⟨kv, hkv, hmap⟩, rfl⟩ := hx
  obtain ⟨a, _, hpair⟩ := Option.map_eq_some'.mp hmap
  exact ⟨kv, hkv, by simpa using congrArg Prod.fst hpair⟩

/-- Reading the match list at the key of a rule gives that rule's own match. -/
theorem mapLookup_found (body : List Char) (l : List (List Char × keywordType))
    (k : List Char) (v : keywordType)
    (hnd : (l.map Prod.fst).Nodup) (hmem : (k, v) ∈ l) :
    mapLookup k (l.filterMap fun kv => (checkOneKeyword body kv.2).map fun m => (kv.1, m)) =
      checkOneKeyword body v := by
  induction l with
  | nil => cases hmem
  | cons hd tl ih =>
    obtain ⟨k1, v1⟩ := hd
    simp only [List.map_cons, List.nodup_cons] at hnd
    rcases List.mem_cons.mp hmem with heq | hmem2
    · obtain ⟨rfl, rfl⟩ := Prod.mk.injEq .. ▸ heq
      cases h : checkOneKeyword body v with
      | some m => simp [List.filterMap_cons, h, mapLookup]
      | none =>
        simp only [List.filterMap_cons, h, Option.map_none']
        exact mapLookup_eq_none_of_not_mem _ _
          fun hx => hnd.1 (keys_found_subset body tl hx)
    · have hk : k ≠ k1 := by
        rintro rfl
        exact hnd.1 (List.mem_map.mpr ⟨(k, v), hmem2, rfl⟩)
      cases h : checkOneKeyword body v1 with
      | some m => simp [List.filterMap_cons, h, mapLookup, hk, ih hnd.2 hmem2]
      | none => simp [List.filterMap_cons, h, ih hnd.2 hmem2]

/-- The contribution of a rule to the match map is its own evaluation. -/
theorem mapLookup_checkKeywords (body : List Char) (l : List (List Char × keywordType))
    (k : List Char) (v : keywordType)
    (hnd : (l.map Prod.fst).Nodup) (hmem : (k, v) ∈ l) :
    mapLookup k (checkKeywords body l).2 = checkOneKeyword body v := by
  rw [checkKeywords, checkKeywordsAux_spec]
  simpa using mapLookup_found body l k v hnd hmem

/-- The overall flag is true exactly when some rule matched. -/
theorem fst_checkKeywords (body : List Char) (l : List (List Char × keywordType)) :
    (checkKeywords body l).1 = l.any fun kv => (checkOneKeyword body kv.2).isSome := by
  rw [checkKeywords, checkKeywordsAux_spec]
  simp

/-! ## Claims C1-C3 -/

/-- The premise of claim C1, stated from the spec's words: the line contains
the keyword as a substring, compared case-insensitively (no word-boundary
requirement). -/
def specLineContainsCI (kw line : List Char) : Bool :=
  (List.range (line.length + 1)).any fun i => ciOccursAt kw line i

/-- Claim C1 as stated is false on the code: the body "mypassword" has a line
containing the literal keyword "password" as a case-insensitive substring and
the rule has no exceptions, yet the rule set compiled from that single rule
records no match, because the compiled pattern demands a word boundary before
the keyword. -/
theorem claim1_counterexample :
    parseKeywords [⟨"password".toList, "literal", []⟩] =
      .ok [("password".toList,
        { regexp := some (.lineRe "password".toList), keywordType := "string",
          ipNet := none, exceptions := [] })]
    ∧ ((splitLines "mypassword".toList).any fun l =>
        specLineContainsCI "password".toList l) = true
    ∧ checkKeywords "mypassword".toList
        [("password".toList,
          { regexp := some (.lineRe "password".toList), keywordType := "string",
            ipNet := none, exceptions := [] })] = (false, []) :=
  ⟨rfl, by decide, by decide⟩

/-- Claim C1 (amended): for every literal rule and body, if some line of the
body contains a case-insensitive occurrence of the keyword starting at a word
boundary, then - writing `l` for the first such line - evaluating the rule
set records the trimmed line as that rule's match, unless that line (trimmed)
contains one of the rule's exception substrings. -/
theorem claim1_literal_line_match (rs : List (List Char × keywordType))
    (body kw : List Char) (exc : List (List Char)) (k l : List Char)
    (hnd : (rs.map Prod.fst).Nodup)
    (hmem : (k, { regexp := some (.lineRe kw), keywordType := "string",
                  ipNet := none, exceptions := exc }) ∈ rs)
    (hline : findLine kw body = some l)
    (hexc : checkExceptions (trimSpace l) exc = false) :
    mapLookup k (checkKeywords body rs).2 = some (trimSpace l)
    ∧ (checkKeywords body rs).1 = true := by
  have hco : checkOneKeyword body
      { regexp := some (.lineRe kw), keywordType := "string",
        ipNet := none, exceptions := exc } = some (trimSpace l) := by
    simp [checkOneKeyword, findStringSubmatch, hline, hexc]
  refine ⟨?_, ?_⟩
  · rw [mapLookup_checkKeywords body rs k _ hnd hmem, hco]
  · rw [fst_checkKeywords]
    exact List.any_eq_true.mpr ⟨_, hmem, by rw [hco]; rfl⟩

/-- Witness for C1 (amended) at the spec's own scenario: keyword "password",
body "my password is hunter2", no exceptions. -/
theorem claim1_witness :
    findLine "password".toList "my password is hunter2".toList =
      some "my password is hunter2".toList
    ∧ checkExceptions (trimSpace "my password is hunter2".toList) [] = false
    ∧ mapLookup "password".toList
        (checkKeywords "my password is hunter2".toList
          [("password".toList,
            { regexp := some (.lineRe "password".toList), keywordType := "string",
              ipNet := none, exceptions := [] })]).2 =
      some (trimSpace "my password is hunter2".toList) :=
  ⟨by decide, by decide,
    (claim1_literal_line_match
      [("password".toList,
        { regexp := some (.lineRe "password".toList), keywordType := "string",
          ipNet := none, exceptions := [] })]
      "my password is hunter2".toList "password".toList [] "password".toList
      "my password is hunter2".toList
      (by decide) (by decide) (by decide) (by decide)).1⟩

/-- Claim C2 as stated is false on the code: with the single rule
10.0.0.0/8 and the body "1.2.3.4 10.5.5.5", the substring "10.5.5.5" (at
offset 8) is a dotted quad whose address lies inside the network, yet the
rule set records no match at all: only the first extracted quad, 1.2.3.4, is
tested for containment. -/
theorem claim2_counterexample :
    parseKeywords [⟨"10.0.0.0/8".toList, "cidr", []⟩] =
      .ok [("10.0.0.0/8".toList,
        { regexp := some .quadRe, keywordType := "ip",
          ipNet := some ⟨167772160, 8, 32⟩, exceptions := [] })]
    ∧ matchFront "10.5.5.5".toList ("1.2.3.4 10.5.5.5".toList.drop 8) = true
    ∧ parseIP "10.5.5.5".toList = some 168101125
    ∧ ipNetContains ⟨167772160, 8, 32⟩ 168101125 = true
    ∧ checkKeywords "1.2.3.4 10.5.5.5".toList
        [("10.0.0.0/8".toList,
          { regexp := some .quadRe, keywordType := "ip",
            ipNet := some ⟨167772160, 8, 32⟩, exceptions := [] })] = (false, []) :=
  ⟨rfl, by decide, by decide, by decide, by decide⟩

/-- Claim C2 (amended): for every CIDR rule and body, the claim holds of the
first dotted-quad substring the matcher extracts: if its address parses and
lies inside the rule's network the rule records exactly that substring; if it
parses but lies outside, the rule records nothing; if it fails IP parsing, no
error arises and the rule records nothing. -/
theorem claim2_cidr_first_quad (rs : List (List Char × keywordType))
    (body : List Char) (k : List Char) (nt : IPNet) (exc : List (List Char))
    (q : List Char)
    (hnd : (rs.map Prod.fst).Nodup)
    (hmem : (k, { regexp := some .quadRe, keywordType := "ip",
                  ipNet := some nt, exceptions := exc }) ∈ rs)
    (hq : findQuad body = some q) :
    (∀ ip, parseIP (trimSpace q) = some ip →
      (ipNetContains nt ip = true →
        mapLookup k (checkKeywords body rs).2 = some (trimSpace q))
      ∧ (ipNetContains nt ip = false →
        mapLookup k (checkKeywords body rs).2 = none))
    ∧ (parseIP (trimSpace q) = none → mapLookup k (checkKeywords body rs).2 = none) := by
  have hlk := mapLookup_checkKeywords body rs k _ hnd hmem
  refine ⟨fun ip hip => ⟨fun hc => ?_, fun hc => ?_⟩, fun hip => ?_⟩
  · rw [hlk]; simp [checkOneKeyword, findStringSubmatch, hq, hip, hc]
  · rw [hlk]; simp [checkOneKeyword, findStringSubmatch, hq, hip, hc]
  · rw [hlk]; simp [checkOneKeyword, findStringSubmatch, hq, hip]

/-- Witness for C2 (amended) at the spec's own scenario: rule 10.0.0.0/8,
body "contact ip 10.5.5.5 for access"; the first extracted quad is inside the
network and is recorded. -/
theorem claim2_witness :
    findQuad "contact ip 10.5.5.5 for access".toList = some "10.5.5.5".toList
    ∧ parseIP (trimSpace "10.5.5.5".toList) = some 168101125
    ∧ ipNetContains ⟨167772160, 8, 32⟩ 168101125 = true
    ∧ mapLookup "10.0.0.0/8".toList
        (checkKeywords "contact ip 10.5.5.5 for access".toList
          [("10.0.0.0/8".toList,
            { regexp := some .quadRe, keywordType := "ip",
              ipNet := some ⟨167772160, 8, 32⟩, exceptions := [] })]).2 =
      some (trimSpace "10.5.5.5".toList) :=
  ⟨by decide, by decide, by decide,
    ((claim2_cidr_first_quad
      [("10.0.0.0/8".toList,
        { regexp := some .quadRe, keywordType := "ip",
          ipNet := some ⟨167772160, 8, 32⟩, exceptions := [] })]
      "contact ip 10.5.5.5 for access".toList "10.0.0.0/8".toList
      ⟨167772160, 8, 32⟩ [] "10.5.5.5".toList
      (by decide) (by decide) (by decide)).1 168101125 (by decide)).1 (by decide)⟩

/-- Claim C3: rule evaluation is independent per rule.  For a rule set with
distinct keys, (i) each rule's entry in the match map equals its entry when
the rule is evaluated alone on the same body, (ii) the overall flag is the
disjunction of the per-rule flags, and (iii) keys outside the rule set never
appear in the match map - the aggregate is exactly the union of the per-rule
results. -/
theorem claim3_rule_independence (body : List Char) (rs : List (List Char × keywordType))
    (hnd : (rs.map Prod.fst).Nodup) :
    (∀ k v, (k, v) ∈ rs →
      mapLookup k (checkKeywords body rs).2 = mapLookup k (checkKeywords body [(k, v)]).2)
    ∧ ((checkKeywords body rs).1 = rs.any fun kv => (checkKeywords body [kv]).1)
    ∧ (∀ k, k ∉ rs.map Prod.fst → mapLookup k (checkKeywords body rs).2 = none) := by
  have hone : ∀ kv : List Char × keywordType,
      (checkKeywords body [kv]).1 = (checkOneKeyword body kv.2).isSome := by
    intro kv; rw [fst_checkKeywords]; simp
  refine ⟨?_, ?_, ?_⟩
  · intro k v hmem
    rw [mapLookup_checkKeywords body rs k v hnd hmem,
      mapLookup_checkKeywords body [(k, v)] k v (by simp) (by simp)]
  · rw [fst_checkKeywords]
    simp only [hone]
  · intro k hk
    rw [checkKeywords, checkKeywordsAux_spec]
    simp only [List.nil_append]
    exact mapLookup_eq_none_of_not_mem _ _ fun hx => hk (keys_found_subset body rs hx)

/-- Witness for C3: a two-rule set (one literal, one cidr) on a body matching
the literal rule. -/
theorem claim3_witness :
    ((([("password".toList,
        { regexp := some (.lineRe "password".toList), keywordType := "string",
          ipNet := none, exceptions := [] }),
       ("10.0.0.0/8".toList,
        { regexp := some .quadRe, keywordType := "ip",
          ipNet := some ⟨167772160, 8, 32⟩, exceptions := [] })] :
        List (List Char × keywordType)).map Prod.fst).Nodup)
    ∧ mapLookup "password".toList
        (checkKeywords "my password is hunter2".toList
          [("password".toList,
            { regexp := some (.lineRe "password".toList), keywordType := "string",
              ipNet := none, exceptions := [] }),
           ("10.0.0.0/8".toList,
            { regexp := some .quadRe, keywordType := "ip",
              ipNet := some ⟨167772160, 8, 32⟩, exceptions := [] })]).2 =
      mapLookup "password".toList
        (checkKeywords "my password is hunter2".toList
          [("password".toList,
            { regexp := some (.lineRe "password".toList), keywordType := "string",
              ipNet := none, exceptions := [] })]).2 :=
  ⟨by decide,
    (claim3_rule_independence "my password is hunter2".toList
      [("password".toList,
        { regexp := some (.lineRe "password".toList), keywordType := "string",
          ipNet := none, exceptions := [] }),
       ("10.0.0.0/8".toList,
        { regexp := some .quadRe, keywordType := "ip",
          ipNet := some ⟨167772160, 8, 32⟩, exceptions := [] })]
      (by decide)).1 "password".toList _ (by decide)⟩

/-- Claim C5: end-to-end scenario 1.  Compiling the single rule
(keyword 10.0.0.0/8, type cidr) yields the expected compiled rule set, and
evaluating the body "contact ip 10.5.5.5 for access" against it yields the
match map binding 10.0.0.0/8 to 10.5.5.5 with the overall flag true. -/
theorem claim5_end_to_end_cidr :
    parseKeywords [⟨"10.0.0.0/8".toList, "cidr", []⟩] =
      .ok [("10.0.0.0/8".toList,
        { regexp := some .quadRe, keywordType := "ip",
          ipNet := some ⟨167772160, 8, 32⟩, exceptions := [] })]
    ∧ checkKeywords "contact ip 10.5.5.5 for access".toList
        [("10.0.0.0/8".toList,
          { regexp := some .quadRe, keywordType := "ip",
            ipNet := some ⟨167772160, 8, 32⟩, exceptions := [] })] =
      (true, [("10.0.0.0/8".toList, "10.5.5.5".toList)]) :=
  ⟨rfl, by decide⟩

/-- Claim C6: end-to-end scenario 2.  Compiling the single literal rule
(keyword "password", exception "example.com"): the body line
"my password is at example.com/docs" yields no match (the exception
suppresses it), while "my password is hunter2" yields the whole line as the
match for "password". -/
theorem claim6_end_to_end_literal :
    parseKeywords [⟨"password".toList, "literal", ["example.com".toList]⟩] =
      .ok [("password".toList,
        { regexp := some (.lineRe "password".toList), keywordType := "string",
          ipNet := none, exceptions := ["example.com".toList] })]
    ∧ checkKeywords "my password is at example.com/docs".toList
        [("password".toList,
          { regexp := some (.lineRe "password".toList), keywordType := "string",
            ipNet := none, exceptions := ["example.com".toList] })] = (false, [])
    ∧ checkKeywords "my password is hunter2".toList
        [("password".toList,
          { regexp := some (.lineRe "password".toList), keywordType := "string",
            ipNet := none, exceptions := ["example.com".toList] })] =
      (true, [("password".toList, "my password is hunter2".toList)]) :=
  ⟨rfl, by decide, by decide⟩

/-! ## Claims C7 and C10 -/

/-- The premise of claim C7, from the spec's words: the keyword is a
parseable IPv4 CIDR - it compiles to a network of the 32-bit family. -/
def specIsIPv4CIDR (s : List Char) : Bool :=
  (parseCIDR s).any fun nt => nt.bitLen == 32

/-- Claim C7 as stated is false on the code: the keyword "::1/128" is not a
parseable IPv4 CIDR, yet `net.ParseCIDR` accepts it through its IPv6 path,
so rule compilation succeeds and returns a rule set instead of an error. -/
theorem claim7_counterexample :
    specIsIPv4CIDR "::1/128".toList = false
    ∧ parseCIDR "::1/128".toList = some ⟨1, 128, 128⟩
    ∧ parseKeywords [⟨"::1/128".toList, "cidr", []⟩] =
        .ok [("::1/128".toList,
          { regexp := some .quadRe, keywordType := "ip",
            ipNet := some ⟨1, 128, 128⟩, exceptions := [] })] :=
  ⟨by decide, by decide, rfl⟩

/-- Claim C7 (amended): if any cidr-typed rule definition has a keyword that
`net.ParseCIDR` cannot parse at all - neither as an IPv4 nor as an IPv6 CIDR
- rule compilation returns an error: no rule set at all is produced (the
error branch of `Except` carries only the message, so no partial rule set can
escape).  A keyword that is merely not IPv4 does not abort: the IPv6 path may
still accept it. -/
theorem claim7_bad_cidr_aborts (ks : List keyword) (k : keyword)
    (hmem : k ∈ ks) (htype : k.ktype = "cidr") (hbad : parseCIDR k.Keyword = none) :
    ∃ e, parseKeywords ks = .error e := by
  induction ks with
  | nil => cases hmem
  | cons hd tl ih =>
    rcases List.mem_cons.mp hmem with rfl | hmem2
    · exact ⟨"could not parse cidr ".toList ++ k.Keyword,
        by simp [parseKeywords, htype, hbad]⟩
    · by_cases hhd : hd.ktype = "cidr"
      · cases hcidr : parseCIDR hd.Keyword with
        | none => exact ⟨"could not parse cidr ".toList ++ hd.Keyword,
            by simp [parseKeywords, hhd, hcidr]⟩
        | some n =>
          obtain ⟨e, he⟩ := ih hmem2
          exact ⟨e, by simp [parseKeywords, hhd, hcidr, he]⟩
      · obtain ⟨e, he⟩ := ih hmem2
        exact ⟨e, by simp [parseKeywords, hhd, he]⟩

/-- Witness for C7 (amended): a cidr rule whose keyword 10.0.0.0/33 parses
under neither family (mask 33 exceeds the IPv4 bit length) aborts
compilation of a two-rule list. -/
theorem claim7_witness :
    ∃ e, parseKeywords [⟨"password".toList, "literal", []⟩,
      ⟨"10.0.0.0/33".toList, "cidr", []⟩] = .error e :=
  claim7_bad_cidr_aborts _ ⟨"10.0.0.0/33".toList, "cidr", []⟩
    (by decide) rfl (by decide)

/-- Two rules that are equal except possibly for the exception list of an
ip-typed (cidr-compiled) rule. -/
def sameRuleUpToIpExceptions (v w : keywordType) : Prop :=
  v = w ∨ (v.keywordType = "ip" ∧ w.keywordType = "ip" ∧ v.regexp = w.regexp
    ∧ v.ipNet = w.ipNet)

/-- The per-rule evaluation never reads the exception list of an ip rule. -/
theorem checkOneKeyword_congr (body : List Char) (v w : keywordType)
    (h : sameRuleUpToIpExceptions v w) :
    checkOneKeyword body v = checkOneKeyword body w := by
  rcases h with rfl | ⟨hv, hw, hre, hip⟩
  · rfl
  · simp only [checkOneKeyword, hre, hip, hv, hw]
    simp

/-- Claim C10: the exception lists of cidr rules have no effect on matching:
two rule sets that agree key-for-key and rule-for-rule except possibly in the
exception lists of ip-typed rules produce identical match results on every
body. -/
theorem claim10_cidr_exceptions_ignored (body : List Char)
    (rs1 rs2 : List (List Char × keywordType))
    (h : List.Forall₂ (fun a b => a.1 = b.1 ∧ sameRuleUpToIpExceptions a.2 b.2) rs1 rs2) :
    checkKeywords body rs1 = checkKeywords body rs2 := by
  rw [checkKeywords, checkKeywords, checkKeywordsAux_spec, checkKeywordsAux_spec]
  induction h with
  | nil => rfl
  | cons hab htl ih =>
    obtain ⟨hk, hr⟩ := hab
    have hco := checkOneKeyword_congr body _ _ hr
    simp only [List.any_cons, List.filterMap_cons, hco, hk, List.nil_append] at ih ⊢
    rw [Prod.mk.injEq] at ih
    cases hcw : checkOneKeyword body _ <;>
      simp [hcw, ih.1, ih.2]

/-- Witness for C10: the same cidr rule with and without an exception list
gives identical results on the scenario body. -/
theorem claim10_witness :
    checkKeywords "contact ip 10.5.5.5 for access".toList
      [("10.0.0.0/8".toList,
        { regexp := some .quadRe, keywordType := "ip",
          ipNet := some ⟨167772160, 8, 32⟩, exceptions := ["10.5.5.5".toList] })] =
    checkKeywords "contact ip 10.5.5.5 for access".toList
      [("10.0.0.0/8".toList,
        { regexp := some .quadRe, keywordType := "ip",
          ipNet := some ⟨167772160, 8, 32⟩, exceptions := [] })] :=
  claim10_cidr_exceptions_ignored "contact ip 10.5.5.5 for access".toList _ _
    (List.Forall₂.cons ⟨rfl, Or.inr ⟨rfl, rfl, rfl, rfl⟩⟩ List.Forall₂.nil)


/-! ## Claim C4: the Seen-Set cache -/

/-- Filtering out the entries of a different key does not change a lookup:
relates a lookup before and after `markChecked` of another key. -/
theorem mapLookup_filter_ne (m : List (String × Nat)) (k k1 : String) (h : k ≠ k1) :
    mapLookup k (m.filter fun e => !(e.1 == k1)) = mapLookup k m := by
  induction m with
  | nil => rfl
  | cons hd tl ih =>
    obtain ⟨ka, ta⟩ := hd
    by_cases hka : ka = k1
    · subst hka
      simp [List.filter_cons, mapLookup, h, ih]
    · simp [List.filter_cons, hka, mapLookup, ih]

/-- Marking one key leaves the membership of any other key unchanged. -/
theorem hasChecked_markChecked_ne (m : List (String × Nat)) (k k1 : String) (t : Nat)
    (h : k ≠ k1) : hasChecked (markChecked m k1 t) k = hasChecked m k := by
  simp [hasChecked, markChecked, mapLookup, h, mapLookup_filter_ne m k k1 h]

/-- A marked key is present. -/
theorem hasChecked_markChecked_self (m : List (String × Nat)) (k : String) (t : Nat) :
    hasChecked (markChecked m k t) k = true := by
  simp [hasChecked, markChecked, mapLookup]

/-- Eviction of an entry present with a known timestamp: removed exactly when
the timestamp strictly precedes the threshold. -/
theorem mapLookup_evictOld (m : List (String × Nat)) (k2 : String) (t2 thr : Nat)
    (hnd : (m.map Prod.fst).Nodup) (h : mapLookup k2 m = some t2) :
    mapLookup k2 (evictOld m thr) = if t2 < thr then none else some t2 := by
  induction m with
  | nil => simp [mapLookup] at h
  | cons hd tl ih =>
    obtain ⟨k1, t1⟩ := hd
    simp only [List.map_cons, List.nodup_cons] at hnd
    by_cases hk : k2 = k1
    · subst hk
      rw [mapLookup, if_pos rfl] at h
      injection h with h
      subst h
      by_cases ht : t1 < thr
      · rw [if_pos ht]
        have hdrop : evictOld ((k2, t1) :: tl) thr = evictOld tl thr := by
          simp [evictOld, List.filter_cons, ht]
        rw [hdrop]
        exact mapLookup_eq_none_of_not_mem _ _
          fun hx => hnd.1 (List.map_subset Prod.fst (List.filter_subset' tl) hx)
      · simp [evictOld, List.filter_cons, ht, mapLookup]
    · rw [mapLookup, if_neg hk] at h
      by_cases ht : t1 < thr
      · simp only [evictOld, List.filter_cons, ht, decide_True, Bool.not_true,
          Bool.false_eq_true, if_false]
        exact ih hnd.2 h
      · simp only [evictOld, List.filter_cons, ht, decide_False, Bool.not_false, if_true]
        rw [mapLookup, if_neg hk]
        exact ih hnd.2 h

/-- Eviction introduces no key that was absent. -/
theorem mapLookup_evictOld_none (m : List (String × Nat)) (k2 : String) (thr : Nat)
    (h : mapLookup k2 m = none) : mapLookup k2 (evictOld m thr) = none := by
  induction m with
  | nil => rfl
  | cons hd tl ih =>
    obtain ⟨k1, t1⟩ := hd
    by_cases hk : k2 = k1
    · subst hk
      rw [mapLookup, if_pos rfl] at h
      cases h
    · rw [mapLookup, if_neg hk] at h
      by_cases ht : t1 < thr
      · simp only [evictOld, List.filter_cons, ht, decide_True, Bool.not_true,
          Bool.false_eq_true, if_false]
        exact ih h
      · simp only [evictOld, List.filter_cons, ht, decide_False, Bool.not_false, if_true]
        rw [mapLookup, if_neg hk]
        exact ih h

/-- Claim C4: Seen-Set cache behaviour.  Marking the same identifier twice
equals marking it once; a marked identifier is present; with distinct keys,
eviction at a threshold removes exactly the entries whose mark time strictly
precedes the threshold (after which lookup returns none) and keeps every
younger entry with its timestamp; eviction adds no entries. -/
theorem claim4_seen_set (m : List (String × Nat)) (k : String) (t thr : Nat)
    (hnd : (m.map Prod.fst).Nodup) :
    markChecked (markChecked m k t) k t = markChecked m k t
    ∧ hasChecked (markChecked m k t) k = true
    ∧ (∀ k2 t2, mapLookup k2 m = some t2 →
        mapLookup k2 (evictOld m thr) = if t2 < thr then none else some t2)
    ∧ (∀ k2, mapLookup k2 m = none → mapLookup k2 (evictOld m thr) = none) := by
  refine ⟨?_, hasChecked_markChecked_self m k t,
    fun k2 t2 h => mapLookup_evictOld m k2 t2 thr hnd h,
    fun k2 h => mapLookup_evictOld_none m k2 thr h⟩
  simp [markChecked, List.filter_cons, List.filter_filter]

/-- Witness for C4 at a concrete cache: entries a(time 5) and b(time 20),
threshold 10: a is evicted, b is kept, and marking c twice is marking it
once. -/
theorem claim4_witness :
    (([("a", 5), ("b", 20)] : List (String × Nat)).map Prod.fst).Nodup
    ∧ mapLookup "a" (evictOld [("a", 5), ("b", 20)] 10) = none
    ∧ mapLookup "b" (evictOld [("a", 5), ("b", 20)] 10) = some 20
    ∧ markChecked (markChecked [("a", 5), ("b", 20)] "c" 30) "c" 30 =
        markChecked [("a", 5), ("b", 20)] "c" 30
    ∧ hasChecked (markChecked [("a", 5), ("b", 20)] "c" 30) "c" = true := by
  have h := claim4_seen_set [("a", 5), ("b", 20)] "c" 30 10 (by decide)
  exact ⟨by decide, by simpa using h.2.2.1 "a" 5 (by decide),
    by simpa using h.2.2.1 "b" 20 (by decide), h.1, h.2.1⟩

/-! ## Claims C8 and C9: the poll cycle -/

/-- Number of body fetches for a given key in one cycle: none if the key was
already seen, one if it occurs anywhere in the listing, regardless of how
often it occurs - the mark placed before the fetch suppresses every later
occurrence. -/
theorem processPastes_fetch_count (f : String → FetchResult) (tm : Nat)
    (ps : List paste) (c : List (String × Nat)) (k : String) :
    (processPastes f tm ps c).fetches.count k =
      if hasChecked c k then 0 else if k ∈ ps.map paste.Key then 1 else 0 := by
  induction ps generalizing c with
  | nil => simp [processPastes, ite_self]
  | cons p rest ih =>
    by_cases hc : hasChecked c p.Key
    · simp only [processPastes, hc, if_true]
      rw [ih]
      by_cases hck : hasChecked c k
      · simp [hck]
      · have hkp : k ≠ p.Key := fun he => hck (by rw [he]; exact hc)
        simp [hck, List.mem_cons, hkp]
    · simp only [processPastes, hc, Bool.false_eq_true, if_false]
      cases hf : f p.Key <;>
      · simp only [hf]
        by_cases hk : k = p.Key
        · subst hk
          simp [List.count_cons, ih, hasChecked_markChecked_self, hc, List.mem_cons]
        · have hk2 : (p.Key == k) = false := beq_eq_false_iff_ne.mpr (Ne.symm hk)
          simp [List.count_cons, ih, hasChecked_markChecked_ne c k p.Key tm hk, hk2,
            List.mem_cons, hk]

/-- Claim C8: within one poll cycle whose listing succeeds, an identifier not
yet in the Seen-Set that appears two or more times among the listed items is
fetched exactly once - the identifier is marked before its fetch, so every
later occurrence in the same cycle is skipped without a fetch call. -/
theorem claim8_duplicate_listed_once (f : String → FetchResult) (tm thr : Nat)
    (ps : List paste) (c : List (String × Nat)) (k : String)
    (hnew : hasChecked c k = false)
    (hdup : 2 ≤ (ps.map paste.Key).count k) :
    (runCycle (.ok ps) f tm thr c).fetches.count k = 1 := by
  have hfe : (runCycle (.ok ps) f tm thr c).fetches = (processPastes f tm ps c).fetches := rfl
  rw [hfe, processPastes_fetch_count]
  have hmem : k ∈ ps.map paste.Key := by
    by_contra hx
    rw [List.count_eq_zero_of_not_mem hx] at hdup
    omega
  simp [hnew, hmem]

/-- Witness for C8: the key x listed twice in one cycle, starting from an
empty Seen-Set, is fetched exactly once. -/
theorem claim8_witness :
    hasChecked [] "x" = false
    ∧ 2 ≤ (([⟨"x"⟩, ⟨"x"⟩] : List paste).map paste.Key).count "x"
    ∧ (runCycle (.ok [⟨"x"⟩, ⟨"x"⟩]) (fun _ => .nomatch) 0 0 []).fetches.count "x" = 1 :=
  ⟨rfl, by decide,
    claim8_duplicate_listed_once (fun _ => .nomatch) 0 0 [⟨"x"⟩, ⟨"x"⟩] [] "x" rfl
      (by decide)⟩

/-- Claim C9: when the LIST call of a poll cycle fails, the cycle performs no
body fetch, emits exactly one error-channel entry (the list error), sends no
output, and leaves the Seen-Set exactly as it was - nothing added, nothing
evicted. -/
theorem claim9_list_failure (e : String) (f : String → FetchResult) (tm thr : Nat)
    (c : List (String × Nat)) :
    runCycle (.error e) f tm thr c = ⟨c, [], [e], []⟩ := rfl
